import Mathlib

/-!
Verification of the ormos/rpx transparent L4 reverse proxy core.

The development shallowly embeds the forwarding pipeline and resolver stack:

* `src/parser/http.rs` — the HTTP/1 Host parser (`is_http`, `try_read_hostname`,
  `Hostname::parse`);
* `src/lib.rs` — the forwarder (`forward`, `parse_service_name`);
* `src/resolver/fallback.rs`, `filter.rs`, `void.rs`,
  `rpx/src/resolver/constant/mod.rs`, `rewrite.rs`, `dns/service.rs`,
  `dns/async_resolver.rs` — the resolver stages;
* `ormos/src/config/mod.rs`, `listener.rs` — configuration loading.

Bytes and Unicode code points are both modelled as `Nat`; byte buffers and
strings are `List Nat`.  External collaborators (the OS sockets, the DNS
client, the regex engine, the TLS acceptor) are modelled as oracles: data
parameters or function parameters of the embedding.
-/

/-- ASCII string literal to byte list.  Only used with ASCII strings, for
which the UTF-8 encoding is the identity on code units. -/
def bytes (s : String) : List Nat :=
  s.toList.map Char.toNat

/-! ## UTF-8 decoding

Model of `std::str::from_utf8` followed by iteration over `char`s:
`decodeUtf8 l = some cps` iff `l` is valid UTF-8 decoding to the code points
`cps`.  Rust rejects overlong encodings, surrogates and code points above
`0x10FFFF`; so does this decoder. -/

/-- Continuation byte test: `0x80..=0xBF`. -/
def utf8Cont (b : Nat) : Bool :=
  decide (0x80 ≤ b ∧ b < 0xC0)

/-- Strict UTF-8 decoder (returns code points). -/
def decodeUtf8 : List Nat → Option (List Nat)
  | [] => some []
  | b :: rest =>
    if b < 0x80 then
      (decodeUtf8 rest).map (b :: ·)
    else if b < 0xC2 then
      -- stray continuation byte, or 0xC0/0xC1 (always overlong)
      none
    else if b < 0xE0 then
      match rest with
      | c :: rest2 =>
        if utf8Cont c then
          (decodeUtf8 rest2).map (((b - 0xC0) * 0x40 + (c - 0x80)) :: ·)
        else none
      | [] => none
    else if b < 0xF0 then
      match rest with
      | c :: d :: rest2 =>
        if utf8Cont c && utf8Cont d then
          let cp := (b - 0xE0) * 0x1000 + (c - 0x80) * 0x40 + (d - 0x80)
          if cp < 0x800 then none
          else if 0xD800 ≤ cp ∧ cp < 0xE000 then none
          else (decodeUtf8 rest2).map (cp :: ·)
        else none
      | _ => none
    else if b < 0xF5 then
      match rest with
      | c :: d :: e :: rest2 =>
        if utf8Cont c && utf8Cont d && utf8Cont e then
          let cp := (b - 0xF0) * 0x40000 + (c - 0x80) * 0x1000
                      + (d - 0x80) * 0x40 + (e - 0x80)
          if cp < 0x10000 then none
          else if 0x10FFFF < cp then none
          else (decodeUtf8 rest2).map (cp :: ·)
        else none
      | _ => none
    else none

/-! ## Rust slice/str splitting

`rustSplit sep l` models `slice::split` / `str::split` with a one-element
separator: the separators are removed, empty segments are kept, `n`
separators yield `n + 1` segments, and the empty input yields one empty
segment. -/

def rustSplit (sep : Nat) : List Nat → List (List Nat)
  | [] => [[]]
  | b :: rest =>
    if b = sep then [] :: rustSplit sep rest
    else
      match rustSplit sep rest with
      | s :: ss => (b :: s) :: ss
      | [] => [[b]]

/-- Rust `char::is_whitespace` (the Unicode `White_Space` property), on code
points. -/
def rustIsWhitespace (cp : Nat) : Bool :=
  decide (cp = 0x9 ∨ cp = 0xA ∨ cp = 0xB ∨ cp = 0xC ∨ cp = 0xD ∨ cp = 0x20
    ∨ cp = 0x85 ∨ cp = 0xA0 ∨ cp = 0x1680 ∨ (0x2000 ≤ cp ∧ cp ≤ 0x200A)
    ∨ cp = 0x2028 ∨ cp = 0x2029 ∨ cp = 0x202F ∨ cp = 0x205F ∨ cp = 0x3000)

/-- Rust `str::trim`: strip leading and trailing whitespace code points. -/
def rustTrim (l : List Nat) : List Nat :=
  ((l.dropWhile rustIsWhitespace).reverse.dropWhile rustIsWhitespace).reverse

/-! ## H1 parser (`src/parser/http.rs`) -/

/-- The nine method tokens of `METHODS`, as byte lists. -/
def METHODS : List (List Nat) :=
  [bytes "GET", bytes "HEAD", bytes "OPTIONS", bytes "CONNECT", bytes "POST",
   bytes "PUT", bytes "PATCH", bytes "TRACE", bytes "DELETE"]

/-- Model of `is_http`: the buffer starts with one of the method tokens.
The byte after the token is not examined. -/
def isHttp (buf : List Nat) : Bool :=
  METHODS.any (fun m => m.isPrefixOf buf)

/-- Line predicate of `try_read_hostname`'s `find`: the decoded line starts
with the literal `Host` or the literal `host`. -/
def hostLinePred (line : List Nat) : Bool :=
  (bytes "Host").isPrefixOf line || (bytes "host").isPrefixOf line

/-- Model of `try_read_hostname`: split the byte buffer on LF, keep the
lines that decode as UTF-8, find the first one satisfying `hostLinePred`,
take `split(':').nth(1)` of it (the segment between the first and second
colon), and trim it. -/
def tryReadHostname (buf : List Nat) : Option (List Nat) :=
  ((((rustSplit 10 buf).filterMap decodeUtf8).find? hostLinePred).bind
    (fun line => (rustSplit 58 line).get? 1)).map rustTrim

/-- The only typed failure of the H1 parser. -/
inductive H1Error where
  | notHttp1
  deriving DecidableEq, Repr

/-- Model of `<Hostname as Parser>::parse`: `Err(NotHttp1)` unless `is_http`
holds, otherwise `Ok(try_read_hostname input)` (`Ok None` means the parser
needs more bytes). -/
def parseH1 (input : List Nat) : Except H1Error (Option (List Nat)) :=
  if isHttp input then .ok (tryReadHostname input) else .error .notHttp1

/-! Spec-side definitions for claims C5 and C6.  These follow the
specification's words, to be compared with the source-derived definitions
above. -/

/-- Modelled from the spec (claim C5): the buffer starts with a method token
followed by a byte that could be a valid request-line separator, for an
arbitrary separator-byte predicate `sep`. -/
def specH1Eligible (sep : Nat → Bool) (buf : List Nat) : Bool :=
  METHODS.any (fun m =>
    m.isPrefixOf buf &&
      (match buf.get? m.length with
       | some b => sep b
       | none => false))

/-- ASCII lower-casing of a code point. -/
def toLowerCp (cp : Nat) : Nat :=
  if 65 ≤ cp ∧ cp ≤ 90 then cp + 32 else cp

/-- Modelled from the spec (claim C6): the first LF-delimited UTF-8 line
whose header name (everything before the first colon) equals `Host`
case-insensitively contributes the value; the value is everything after the
first colon, trimmed. -/
def specHostValueClaim (buf : List Nat) : Option (List Nat) :=
  (((rustSplit 10 buf).filterMap decodeUtf8).find?
      (fun l => (l.takeWhile (· ≠ 58)).map toLowerCp == bytes "host")).bind
    (fun line =>
      if line.any (· = 58) then
        some (rustTrim ((line.dropWhile (· ≠ 58)).tail))
      else none)

/-- Amended reading of claim C6, stated without `rustSplit`: the first
UTF-8 line starting with the literal `Host` or `host` contributes the value;
the value is the segment strictly between the first and the second colon
(to the end if there is no second colon), trimmed; no colon means no value. -/
def specHostValueAmended (buf : List Nat) : Option (List Nat) :=
  (((rustSplit 10 buf).filterMap decodeUtf8).find? hostLinePred).bind
    (fun line =>
      if line.any (· = 58) then
        some (rustTrim (((line.dropWhile (· ≠ 58)).tail).takeWhile (· ≠ 58)))
      else none)

/-! ## Forwarder (`src/lib.rs`)

A parser instance is modelled as a pure function of the full accumulated
buffer (the Rust trait hands every parser the entire buffer on every tick);
its three outcomes mirror `Ok(Some(name))` / `Ok(None)` / `Err(_)`. -/

inductive ParseStep where
  | ready (name : List Nat)
  | needMore
  | failed
  deriving DecidableEq, Repr

abbrev ParserFn : Type := List Nat → ParseStep

/-- The H1 parser as a `ParserFn` (how `forward` consumes `Hostname`). -/
def h1ParserFn : ParserFn := fun buf =>
  match parseH1 buf with
  | .ok (some name) => .ready name
  | .ok none => .needMore
  | .error _ => .failed

/-- Parser at index `ix`, as `parse_service_name` addresses them. -/
def parserAt (parsers : List ParserFn) (ix : Nat) (buf : List Nat) : ParseStep :=
  match parsers.get? ix with
  | some p => p buf
  | none => .failed

/-- First `Ready` name among the active parsers, scanned in order (the `for`
loop of `parse_service_name` returns on the first `Ok(Some(name))`). -/
def firstReady (parsers : List ParserFn) (active : List Nat) (buf : List Nat) :
    Option (List Nat) :=
  active.findSome? (fun ix =>
    match parserAt parsers ix buf with
    | .ready name => some name
    | _ => none)

/-- The `valid` list rebuilt on each tick: the active parsers that still
answered `Ok(None)` (failed parsers are dropped and never re-invoked). -/
def stillActive (parsers : List ParserFn) (active : List Nat) (buf : List Nat) :
    List Nat :=
  active.filter (fun ix =>
    match parserAt parsers ix buf with
    | .needMore => true
    | _ => false)

/-- Model of the loop of `parse_service_name`.  The client socket is
modelled as the list `chunks` of byte chunks successive `read_buf` calls
return; an exhausted list means every further read would block (or return
0 bytes at EOF), which the loop cannot observe as an exit condition, so the
model returns `none` ("no outcome within the provided reads").

On an exit the model returns the final buffer, the loop's result
(`some name` for `Ok(Some(name))`, `none` for the all-parsers-failed
`Ok(None)`), and the chunks not yet read. -/
def runLoop (parsers : List ParserFn) :
    List (List Nat) → List Nat → List Nat →
      Option (List Nat × Option (List Nat) × List (List Nat))
  | chunks, buf, active =>
    if active.isEmpty then some (buf, none, chunks)
    else
      match chunks with
      | [] => none
      | c :: rest =>
        let buf2 := buf ++ c
        match firstReady parsers active buf2 with
        | some name => some (buf2, some name, rest)
        | none => runLoop parsers rest buf2 (stillActive parsers active buf2)

/-- Bytes delivered to the upstream socket by the splice phase of `forward`:
`write_all(&buf)` first, then `copy_bidirectional` forwards the rest of the
client's bytes in order. -/
def forwardDelivered (buf : List Nat) (rest : List (List Nat)) : List Nat :=
  buf ++ rest.flatten

/-- Outcome of the deadline-guarded read-ahead phase, as `forward` matches
it: `Err(_)` of the timeout, `Ok(Err(_))` of an I/O error, `Ok(Ok(None))`,
`Ok(Ok(Some(name)))`. -/
inductive ReadPhase where
  | timedOut
  | ioError
  | completed (result : Option (List Nat))

/-- The `service_name` each arm of `forward`'s first match produces. -/
def serviceNameOf : ReadPhase → Option (List Nat)
  | .timedOut => none
  | .ioError => none
  | .completed none => some []
  | .completed (some name) => some name

/-- Errors visible to the resolver stack. -/
inductive PipeError where
  | notSupported (name : List Nat)
  | other
  deriving DecidableEq, Repr

/-- Resolver requests and destinations: `(String, u16)` and `SocketAddr`
(an IP address is opaque here, a `Nat`). -/
abbrev IpAddr : Type := Nat
abbrev SockAddr : Type := Nat × Nat
abbrev Request : Type := List Nat × Nat

/-- What `forward` does after resolution. -/
inductive FwdAction where
  | shutdown
  | splice (dest : SockAddr)

/-- Model of `forward` from the first match on.  The Boolean records
whether the resolver was touched at all: `poll_ready` and `call` both
happen only inside the `Some(name)` arm of the second match.  An error of
the resolver propagates out of `forward` through `?`. -/
def forwardModel (phase : ReadPhase)
    (resolver : Request → Except PipeError (Option SockAddr)) (port : Nat) :
    Bool × Except PipeError FwdAction :=
  match serviceNameOf phase with
  | none => (false, .ok .shutdown)
  | some name =>
    match resolver (name, port) with
    | .error e => (true, .error e)
    | .ok none => (true, .ok .shutdown)
    | .ok (some dest) => (true, .ok (.splice dest))

/-! ## Resolver stages -/

/-- Leaf stage `void::Service`: always `Ok(None)`. -/
def voidCall : Request → Except PipeError (Option SockAddr) :=
  fun _ => .ok none

/-- Model of the `Fallback` future's `poll` (`src/resolver/fallback.rs`):
`Ok(Some(v))` of the inner future passes through; every other completed
outcome — `Ok(None)` or `Err(_)` — becomes `Ok(Some(default))`. -/
def fallbackCall (default : SockAddr)
    (inner : Request → Except PipeError (Option SockAddr)) (req : Request) :
    Except PipeError (Option SockAddr) :=
  match inner req with
  | .ok (some v) => .ok (some v)
  | _ => .ok (some default)

/-- Model of `Check::check` (`rpx/src/resolver/filter.rs`): admit the
request iff some allowed domain is a byte-exact suffix of the name. -/
def filterCheck (allowed : List (List Nat)) (req : Request) :
    Except PipeError Request :=
  if allowed.any (fun domain => domain.isSuffixOf req.1) then .ok req
  else .error (.notSupported req.1)

/-- `tower::filter::Filter`: run the predicate, then the inner service;
a predicate failure aborts the call with the error. -/
def filterCall (allowed : List (List Nat))
    (inner : Request → Except PipeError (Option SockAddr)) (req : Request) :
    Except PipeError (Option SockAddr) :=
  match filterCheck allowed req with
  | .ok req2 => inner req2
  | .error e => .error e

/-- SliceRandom::choose, with the random draw `k` supplied as an oracle:
`none` exactly on the empty list, otherwise some element of the list. -/
def chooseAt (l : List IpAddr) (k : Nat) : Option IpAddr :=
  l.get? (k % l.length)

/-- Model of `constant::Service::call` (`rpx/src/resolver/constant/mod.rs`;
`src/resolver/config_file.rs` has the identical body).  The two `HashMap`s
are modelled as association lists.  The Boolean records whether the inner
stage was invoked. -/
def constantCall (ipMap : List (List Nat × List IpAddr))
    (portMap : List ((List Nat × Nat) × Nat)) (k : Nat)
    (inner : Request → Except PipeError (Option SockAddr)) (req : Request) :
    Bool × Except PipeError (Option SockAddr) :=
  let port2 := (portMap.lookup req).getD req.2
  let address := (ipMap.lookup req.1).bind (fun existing => chooseAt existing k)
  match address with
  | some ip => (false, .ok (some (ip, port2)))
  | none => (true, inner (req.1, port2))

/-! ## Rewrite stage (`rpx/src/resolver/rewrite.rs`)

The regex engine is an external collaborator.  A rule is modelled by the
observable behaviour of `Regex::replace`: a match predicate and a
replacement function (capture-group substitution folded into the latter).
`Regex::replace` returns `Cow::Borrowed` exactly when the regex does not
match, and `Cow::Owned` of the substituted string when it does. -/

inductive CowResult where
  | borrowed
  | owned (s : List Nat)

structure RewriteRule where
  isMatch : List Nat → Bool
  replaced : List Nat → List Nat

/-- Model of `Config::apply`. -/
def ruleApply (rule : RewriteRule) (input : List Nat) : CowResult :=
  if rule.isMatch input then .owned (rule.replaced input) else .borrowed

/-- Model of `Service::apply_all`: the first rule producing `Cow::Owned`
wins; if none does, the input is returned unchanged. -/
def applyAll (rules : List RewriteRule) (input : List Nat) : List Nat :=
  (rules.findSome? (fun rule =>
    match ruleApply rule input with
    | .borrowed => none
    | .owned applied => some applied)).getD input

/-- Model of `rewrite::Service::call`: rewrite the name, forward to the
inner stage with the unchanged port. -/
def rewriteCall (rules : List RewriteRule)
    (inner : Request → Except PipeError (Option SockAddr)) (req : Request) :
    Except PipeError (Option SockAddr) :=
  inner (applyAll rules req.1, req.2)

/-! ## DNS stage (`rpx/src/resolver/dns/service.rs`, `async_resolver.rs`)

The DNS client (`trust_dns_resolver`) is an external collaborator; a
`Resolver` is modelled by its SRV suffix list together with the outcome its
`resolve_srv` and `resolve_ip` calls produce for the request at hand.
An SRV outcome is already a socket address (`async_resolver.rs` follows the
chosen SRV target up with an A/AAAA lookup and pairs it with the SRV
record's port); an IP outcome is a bare address that `resolve_ip` pairs
with the request's port. -/

structure DnsResolver where
  srvSuffixes : List (List Nat)
  srvOutcome : Except PipeError (Option SockAddr)
  ipOutcome : Except PipeError (Option IpAddr)

/-- Model of `Resolver::should_lookup_srv`. -/
def shouldLookupSrv (r : DnsResolver) (record : List Nat) : Bool :=
  r.srvSuffixes.any (fun domain => domain.isSuffixOf record)

/-- The race loop of `Service::resolve_srv` / `resolve_ip` over a
`FuturesUnordered`, with completion order modelled as list order: the first
`Ok(Some(_))` wins; errors and `Ok(None)` are skipped; exhaustion yields
`Ok(None)` (the loop itself never returns an error). -/
def raceFirst {α : Type} : List (Except PipeError (Option α)) → Option α
  | [] => none
  | .ok (some a) :: _ => some a
  | .ok none :: rest => raceFirst rest
  | .error _ :: rest => raceFirst rest

/-- Model of `dns::Service::call`: if any client is SRV-eligible for the
record, race `resolve_srv` over the eligible clients; otherwise race
`resolve_ip` over all clients, pairing the winning address with the
request's port.  `Ok(Some(_))` is returned as is; anything else falls
through to the inner stage with the original request. -/
def dnsCall (resolvers : List DnsResolver)
    (inner : Request → Except PipeError (Option SockAddr)) (req : Request) :
    Except PipeError (Option SockAddr) :=
  let raced :=
    if resolvers.any (fun r => shouldLookupSrv r req.1) then
      raceFirst ((resolvers.filter (fun r => shouldLookupSrv r req.1)).map
        (fun r => r.srvOutcome))
    else
      (raceFirst (resolvers.map (fun r => r.ipOutcome))).map
        (fun ip => (ip, req.2))
  match raced with
  | some address => .ok (some address)
  | none => inner req

/-- Modelled from the spec (claim C4): same stage, except that an
SRV-eligible request whose SRV race yields no target falls back to the
parallel A/AAAA race before the inner stage is consulted. -/
def specDnsCallClaim (resolvers : List DnsResolver)
    (inner : Request → Except PipeError (Option SockAddr)) (req : Request) :
    Except PipeError (Option SockAddr) :=
  let srvRaced :=
    if resolvers.any (fun r => shouldLookupSrv r req.1) then
      raceFirst ((resolvers.filter (fun r => shouldLookupSrv r req.1)).map
        (fun r => r.srvOutcome))
    else none
  let raced :=
    match srvRaced with
    | some address => some address
    | none =>
      (raceFirst (resolvers.map (fun r => r.ipOutcome))).map
        (fun ip => (ip, req.2))
  match raced with
  | some address => .ok (some address)
  | none => inner req

/-! ## Configuration loading (`ormos/src/config/mod.rs`, `listener.rs`) -/

inductive ParserKind where
  | h1
  | tls
  deriving DecidableEq, Repr

/-- A configured listener: a bind address (kept abstract as its textual
form) and the parser kinds to run on it. -/
structure Listener where
  address : List Nat
  parsers : List ParserKind
  deriving DecidableEq, Repr

/-- `Listener::default`: `127.0.0.1:8314` with parsers `[h1, tls]`. -/
def defaultListener : Listener :=
  { address := bytes "127.0.0.1:8314", parsers := [.h1, .tls] }

/-- The five rule variants of `config::Rule` (payloads are irrelevant to
the claims about `validate` and are elided). -/
inductive RuleKind where
  | constant
  | dns
  | fallback
  | filter
  | rewrite
  deriving DecidableEq, Repr

/-- A YAML document as the serde deserializer sees the two fields of
`ConfigFile`: `none` models an absent `listen` key. -/
structure RawConfigFile where
  listen : Option (List Listener)
  rules : List RuleKind

structure ConfigFile where
  listen : List Listener
  rules : List RuleKind

inductive ConfigError where
  | missingListenField
  | noRules
  deriving DecidableEq, Repr

/-- Model of deserializing `ConfigFile`: its `listen: Vec<Listener>` field
carries no `#[serde(default)]`, so serde rejects a document without the
`listen` key with a missing-field error. -/
def deserializeConfigFile (raw : RawConfigFile) : Except ConfigError ConfigFile :=
  match raw.listen with
  | none => .error .missingListenField
  | some listen => .ok { listen := listen, rules := raw.rules }

/-- The parts of `ConfigFile::validate` the claims depend on: reject an
empty rule list, and replace an empty `listen` list by the default
listener. -/
def validateListen (cf : ConfigFile) : Except ConfigError (List Listener) :=
  if cf.rules.isEmpty then .error .noRules
  else if cf.listen.isEmpty then .ok [defaultListener]
  else .ok cf.listen

/-- `load_config`: deserialize, then validate. -/
def loadListen (raw : RawConfigFile) : Except ConfigError (List Listener) :=
  (deserializeConfigFile raw).bind validateListen

/-! ## Helper lemmas -/

/-- The read-ahead loop only ever appends the bytes it reads to the buffer:
on any exit, the final buffer plus the unread chunks reassemble the initial
buffer plus every chunk of the stream. -/
lemma runLoop_consumes (parsers : List ParserFn) :
    ∀ chunks buf active b r rest,
      runLoop parsers chunks buf active = some (b, r, rest) →
      b ++ rest.flatten = buf ++ chunks.flatten := by
  intro chunks
  induction chunks with
  | nil =>
    intro buf active b r rest h
    unfold runLoop at h
    by_cases ha : active.isEmpty <;> simp [ha] at h
    obtain ⟨hb, _, hrest⟩ := h
    subst hb; subst hrest; simp
  | cons c cs ih =>
    intro buf active b r rest h
    unfold runLoop at h
    by_cases ha : active.isEmpty <;> simp [ha] at h
    · obtain ⟨hb, _, hrest⟩ := h
      subst hb; subst hrest; simp
    · rcases hf : firstReady parsers active (buf ++ c) with _ | name <;>
        rw [hf] at h <;> simp at h
      · have := ih (buf ++ c) (stillActive parsers active (buf ++ c)) b r rest h
        simpa [List.append_assoc] using this
      · obtain ⟨hb, _, hrest⟩ := h
        subst hb; subst hrest; simp [List.append_assoc]

/-- A tick on which every active parser still answers `Ok(None)` removes no
parser from the active set. -/
lemma stillActive_eq_self (parsers : List ParserFn) (active : List Nat) (buf : List Nat)
    (h : ∀ ix ∈ active, parserAt parsers ix buf = .needMore) :
    stillActive parsers active buf = active := by
  unfold stillActive
  apply List.filter_eq_self.mpr
  intro ix hix
  rw [h ix hix]

/-- A tick on which every active parser still answers `Ok(None)` yields no
name. -/
lemma firstReady_eq_none (parsers : List ParserFn) (active : List Nat) (buf : List Nat)
    (h : ∀ ix ∈ active, parserAt parsers ix buf = .needMore) :
    firstReady parsers active buf = none := by
  unfold firstReady
  rw [List.findSome?_eq_none_iff]
  intro ix hix
  rw [h ix hix]

/-- The head segment of a Rust split is the longest separator-free
prefix. -/
lemma rustSplit_head_shape (c : Nat) (l : List Nat) :
    ∃ ss, rustSplit c l = (l.takeWhile (· ≠ c)) :: ss := by
  induction l with
  | nil => exact ⟨[], rfl⟩
  | cons b rest ih =>
    by_cases hb : b = c
    · subst hb
      refine ⟨rustSplit b rest, ?_⟩
      simp [rustSplit]
    · obtain ⟨ss, hss⟩ := ih
      refine ⟨ss, ?_⟩
      simp [rustSplit, hb, hss]

/-- `split(sep).nth(1)` is the segment strictly between the first and the
second separator (running to the end if there is no second separator), and
it exists iff the input contains the separator at all. -/
lemma rustSplit_get1 (c : Nat) (l : List Nat) :
    (rustSplit c l).get? 1 =
      if l.any (· = c) then
        some (((l.dropWhile (· ≠ c)).tail).takeWhile (· ≠ c))
      else none := by
  induction l with
  | nil => simp [rustSplit]
  | cons b rest ih =>
    by_cases hb : b = c
    · subst hb
      obtain ⟨ss, hss⟩ := rustSplit_head_shape b rest
      simp [rustSplit, hss, List.dropWhile]
    · obtain ⟨ss, hss⟩ := rustSplit_head_shape c rest
      rw [hss] at ih
      simp only [rustSplit, if_neg hb, hss]
      simpa [List.any_cons, hb, List.dropWhile_cons, if_pos] using ih

/-- `apply_all` returns the replacement of the first matching rule, and the
input itself when no rule matches. -/
lemma applyAll_eq_find (rules : List RewriteRule) (input : List Nat) :
    applyAll rules input =
      match rules.find? (fun rl => rl.isMatch input) with
      | some r => r.replaced input
      | none => input := by
  induction rules with
  | nil => rfl
  | cons r0 rest ih =>
    by_cases hm : r0.isMatch input
    · simp [applyAll, List.findSome?_cons, List.find?_cons, ruleApply, hm]
    · have hm2 : r0.isMatch input = false := by simpa using hm
      simp only [applyAll, List.findSome?_cons, List.find?_cons, ruleApply, hm2]
      simpa [applyAll] using ih

/-! ## Claim theorems -/

/-- C1: whenever the read-ahead loop of `forward` exits (having consumed
some prefix of the client's chunks), the byte stream the splice phase
delivers to upstream — the accumulated buffer written by `write_all`
followed by the remaining client bytes forwarded by `copy_bidirectional` —
equals the client's bytes in order, with no loss or duplication; in
particular it is (bytes read before the dial) ++ (bytes read after the
dial). -/
theorem forward_prefix_preservation : ∀ (parsers : List ParserFn)
    (chunks : List (List Nat)) (b : List Nat) (r : Option (List Nat))
    (rest : List (List Nat)),
    runLoop parsers chunks [] (List.range parsers.length) = some (b, r, rest) →
    forwardDelivered b rest = chunks.flatten := by
  intro parsers chunks b r rest h
  have := runLoop_consumes parsers chunks [] (List.range parsers.length) b r rest h
  simpa [forwardDelivered] using this

/-- Client chunks of the C1 witness: an HTTP/1 request split mid-header. -/
def c1Chunks : List (List Nat) := [bytes "GET / HTTP/1.1\nHo", bytes "st:a\n"]

/-- C1 witness: a concrete run of the loop with the H1 parser, split across
two reads; the delivered stream is exactly the client's bytes. -/
theorem forward_prefix_preservation_witness :
    runLoop [h1ParserFn] c1Chunks [] (List.range 1)
      = some (c1Chunks.flatten, some (bytes "a"), [])
    ∧ forwardDelivered c1Chunks.flatten [] = c1Chunks.flatten :=
  ⟨rfl, forward_prefix_preservation [h1ParserFn] c1Chunks c1Chunks.flatten
    (some (bytes "a")) [] rfl⟩

/-- C2: the fallback stage passes the inner stage's `Some(x)` through
unchanged, converts both an inner error and an inner `None` into
`Some(default)`, and — composed outside a filter stage, as `resolver_stack`
composes them — yields `Some(_)` for every request, never an error. -/
theorem fallback_absorbs_errors : ∀ (d : SockAddr)
    (inner : Request → Except PipeError (Option SockAddr)) (req : Request),
    (∀ x, inner req = .ok (some x) → fallbackCall d inner req = .ok (some x))
    ∧ (∀ e, inner req = .error e → fallbackCall d inner req = .ok (some d))
    ∧ (inner req = .ok none → fallbackCall d inner req = .ok (some d))
    ∧ (∀ (allowed : List (List Nat))
        (inner2 : Request → Except PipeError (Option SockAddr)) (req2 : Request),
        ∃ v, fallbackCall d (filterCall allowed inner2) req2 = .ok (some v)) := by
  intro d inner req
  refine ⟨?_, ?_, ?_, ?_⟩
  · intro x hx; simp [fallbackCall, hx]
  · intro e he; simp [fallbackCall, he]
  · intro h; simp [fallbackCall, h]
  · intro allowed inner2 req2
    rcases hv : filterCall allowed inner2 req2 with e | v
    · exact ⟨d, by simp [fallbackCall, hv]⟩
    · rcases v with _ | x
      · exact ⟨d, by simp [fallbackCall, hv]⟩
      · exact ⟨x, by simp [fallbackCall, hv]⟩

/-- C2 witness: a name the filter rejects still resolves to the fallback
destination. -/
theorem fallback_absorbs_errors_witness :
    ∃ v, fallbackCall (7, 80) (filterCall [bytes "allowed.net"] voidCall)
      (bytes "other.com", 443) = .ok (some v) :=
  (fallback_absorbs_errors (7, 80) voidCall (bytes "x", 1)).2.2.2
    [bytes "allowed.net"] voidCall (bytes "other.com", 443)

/-- C3: when the constant stage's `ip_map` holds a non-empty IP list for
the name, the stage answers `Some((ip, p2))` with `ip` drawn from that list
and `p2 = port_map.get((name, p)).unwrap_or(p)`, without invoking the inner
stage (the flag is `false`, so no DNS traffic); with no entry or an empty
entry it invokes the inner stage with `(name, p2)`. -/
theorem constant_short_circuit : ∀ (ipMap : List (List Nat × List IpAddr))
    (portMap : List ((List Nat × Nat) × Nat)) (k : Nat)
    (inner : Request → Except PipeError (Option SockAddr))
    (name : List Nat) (port : Nat),
    (∀ l, ipMap.lookup name = some l → l ≠ [] →
      ∃ ip ∈ l, constantCall ipMap portMap k inner (name, port) =
        (false, .ok (some (ip, (portMap.lookup (name, port)).getD port))))
    ∧ (ipMap.lookup name = none ∨ ipMap.lookup name = some [] →
      constantCall ipMap portMap k inner (name, port) =
        (true, inner (name, (portMap.lookup (name, port)).getD port))) := by
  intro ipMap portMap k inner name port
  constructor
  · intro l hl hne
    have hlt : k % l.length < l.length :=
      Nat.mod_lt _ (List.length_pos.mpr hne)
    refine ⟨l.get ⟨k % l.length, hlt⟩, List.get_mem l _ hlt, ?_⟩
    simp [constantCall, hl, chooseAt, List.getElem?_eq_getElem hlt,
      List.get_eq_getElem]
  · rintro (hl | hl) <;> simp [constantCall, hl, chooseAt]

/-- C3 witness: scenario S1/S2 of the spec — `example.com` overridden to IP
`11` with port binding `8443:443` short-circuits without the inner stage. -/
theorem constant_short_circuit_witness :
    ∃ ip ∈ [(11 : IpAddr)],
      constantCall [(bytes "example.com", [11])] [((bytes "example.com", 8443), 443)] 0
        voidCall (bytes "example.com", 8443) =
      (false, .ok (some (ip,
        (List.lookup (bytes "example.com", 8443)
          [((bytes "example.com", 8443), 443)]).getD 8443))) :=
  (constant_short_circuit [(bytes "example.com", [11])]
    [((bytes "example.com", 8443), 443)] 0 voidCall (bytes "example.com") 8443).1
    [11] rfl (by decide)

/-- C4 (amended): if at least one client is SRV-eligible for the name and
the SRV race yields no target, the DNS stage forwards to the inner stage
directly — it performs no A/AAAA pass; the parallel A/AAAA race over all
clients (first non-empty answer, paired with the original port) happens
only when no client is SRV-eligible for the name. -/
theorem dns_srv_inner_forward : ∀ (resolvers : List DnsResolver)
    (inner : Request → Except PipeError (Option SockAddr))
    (name : List Nat) (port : Nat),
    (resolvers.any (fun r => shouldLookupSrv r name) = true →
      raceFirst ((resolvers.filter (fun r => shouldLookupSrv r name)).map
        (fun r => r.srvOutcome)) = none →
      dnsCall resolvers inner (name, port) = inner (name, port))
    ∧ (resolvers.any (fun r => shouldLookupSrv r name) = false →
      dnsCall resolvers inner (name, port) =
        match raceFirst (resolvers.map (fun r => r.ipOutcome)) with
        | some ip => .ok (some (ip, port))
        | none => inner (name, port)) := by
  intro resolvers inner name port
  constructor
  · intro helig hrace
    simp [dnsCall, helig, hrace]
  · intro helig
    rcases hr : raceFirst (resolvers.map (fun r => r.ipOutcome)) with _ | ip <;>
      simp [dnsCall, helig, hr]

/-- One DNS client, SRV-eligible for `svc.local`, whose SRV lookup finds
nothing but whose A/AAAA lookup would find the address `7`. -/
def c4Resolvers : List DnsResolver :=
  [{ srvSuffixes := [bytes "svc.local"], srvOutcome := .ok none,
     ipOutcome := .ok (some 7) }]

/-- C4 counterexample: for `api.svc.local`, the stage as implemented
returns the inner stage's `None` although the client's A/AAAA resolution
would have answered; the claim's reading would return `Some((7, 6000))`. -/
theorem dns_srv_no_ip_fallback_cex :
    dnsCall c4Resolvers voidCall (bytes "api.svc.local", 6000) = .ok none
    ∧ specDnsCallClaim c4Resolvers voidCall (bytes "api.svc.local", 6000)
        = .ok (some (7, 6000)) := ⟨rfl, rfl⟩

/-- C4 witness: the amended behaviour at the counterexample input — the
stage forwards to the inner stage. -/
theorem dns_srv_inner_forward_witness :
    dnsCall c4Resolvers voidCall (bytes "api.svc.local", 6000)
      = voidCall (bytes "api.svc.local", 6000) :=
  (dns_srv_inner_forward c4Resolvers voidCall (bytes "api.svc.local") 6000).1 rfl rfl

/-- C5 (amended): the H1 parser fails with `NotHttp1` exactly when the
buffer does not start with one of the nine method tokens; the byte after a
method token is never examined. -/
theorem h1_notHttp1_iff_no_method : ∀ buf : List Nat,
    parseH1 buf = .error .notHttp1 ↔ isHttp buf = false := by
  intro buf
  unfold parseH1
  cases h : isHttp buf <;> simp [h]

/-- C5 counterexample: the bare buffer `GET` is not followed by any byte —
let alone a request-line separator — yet `parse` does not fail with
`NotHttp1` (it answers need-more); likewise `GETXYZ` under the separator
bytes SP and HT. -/
theorem h1_no_separator_check_cex :
    specH1Eligible (fun _ => true) (bytes "GET") = false
    ∧ parseH1 (bytes "GET") = .ok none
    ∧ specH1Eligible (fun b => b == 32 || b == 9) (bytes "GETXYZ") = false
    ∧ parseH1 (bytes "GETXYZ") = .ok none := ⟨rfl, rfl, rfl, rfl⟩

/-- C5 witness: a buffer starting with no method token fails with
`NotHttp1`. -/
theorem h1_notHttp1_iff_no_method_witness :
    parseH1 (bytes "xyz") = .error .notHttp1 :=
  (h1_notHttp1_iff_no_method (bytes "xyz")).mpr rfl

/-- C6 (amended): on an eligible buffer the H1 parser yields exactly the
value described by `specHostValueAmended`: the first LF-delimited UTF-8
line starting with the literal `Host` or `host` (a prefix match, not
case-insensitive header-name equality) contributes the value, which is the
trimmed segment strictly between the line's first and second colons; with
no such line (or no colon on it) the parser answers need-more. -/
theorem h1_hostname_characterization : ∀ buf : List Nat, isHttp buf = true →
    parseH1 buf = .ok (specHostValueAmended buf) := by
  intro buf h
  unfold parseH1
  rw [if_pos h]
  congr 1
  unfold tryReadHostname specHostValueAmended
  rcases hf : ((rustSplit 10 buf).filterMap decodeUtf8).find? hostLinePred with _ | line
  · simp
  · simp only [Option.some_bind]
    rw [rustSplit_get1]
    by_cases ha : line.any (· = 58)
    · simp [ha]
    · simp [ha]

/-- A request whose `Hostile` header precedes its `Host` header. -/
def c6CexBuf : List Nat := bytes "GET / HTTP/1.1\nHostile:evil\nHost: good\n\n"

/-- C6 counterexample: the parser yields `evil` from the `Hostile:` line
(prefix match), while the claim's case-insensitive header-name reading
would yield `good` from the `Host:` line. -/
theorem h1_host_prefix_cex :
    parseH1 c6CexBuf = .ok (some (bytes "evil"))
    ∧ specHostValueClaim c6CexBuf = some (bytes "good")
    ∧ bytes "evil" ≠ bytes "good" := ⟨rfl, rfl, by decide⟩

/-- Input of the C6 witness. -/
def c6WitnessBuf : List Nat := bytes "GET / HTTP/1.1\nHost: example.com\n\n"

/-- C6 witness: the characterization at a concrete eligible request. -/
theorem h1_hostname_characterization_witness :
    isHttp c6WitnessBuf = true
    ∧ parseH1 c6WitnessBuf = .ok (specHostValueAmended c6WitnessBuf) :=
  ⟨rfl, h1_hostname_characterization c6WitnessBuf rfl⟩

/-- C7: the rewrite stage always forwards `(apply_all name, port)` to the
inner stage with the port unchanged; `apply_all` applies exactly the
replacement of the first rule whose regex matches (later matching rules are
ignored) and leaves the name unchanged when no rule matches. -/
theorem rewrite_first_match : ∀ (rules : List RewriteRule)
    (inner : Request → Except PipeError (Option SockAddr))
    (name : List Nat) (port : Nat),
    rewriteCall rules inner (name, port) = inner (applyAll rules name, port)
    ∧ (∀ r, rules.find? (fun rl => rl.isMatch name) = some r →
        applyAll rules name = r.replaced name)
    ∧ (rules.find? (fun rl => rl.isMatch name) = none →
        applyAll rules name = name) := by
  intro rules inner name port
  refine ⟨rfl, ?_, ?_⟩
  · intro r hr
    rw [applyAll_eq_find, hr]
  · intro hr
    rw [applyAll_eq_find, hr]

/-- First rewrite rule of the C7 witness: rewrite names ending in `.com`. -/
def c7Rule1 : RewriteRule :=
  { isMatch := fun s => (bytes ".com").isSuffixOf s,
    replaced := fun _ => bytes "example.internal" }

/-- Second rewrite rule of the C7 witness: matches everything, but is
shadowed by the first rule. -/
def c7Rule2 : RewriteRule :=
  { isMatch := fun _ => true, replaced := fun _ => bytes "never-picked" }

/-- C7 witness: with two matching rules, the first one's replacement is
applied and the second is ignored. -/
theorem rewrite_first_match_witness :
    applyAll [c7Rule1, c7Rule2] (bytes "example.com")
      = c7Rule1.replaced (bytes "example.com") :=
  (rewrite_first_match [c7Rule1, c7Rule2] voidCall (bytes "example.com") 80).2.1
    c7Rule1 rfl

/-- C8: when the 30-second deadline elapses during the read-ahead phase,
`forward` never touches the resolver (neither `poll_ready` nor `call`,
both of which live in the branch the flag guards), shuts the client down
and returns without error. -/
theorem timeout_skips_resolver : ∀ (resolver : Request → Except PipeError (Option SockAddr))
    (port : Nat),
    forwardModel .timedOut resolver port = (false, .ok .shutdown) :=
  fun _ _ => rfl

/-- C9 (amended): config loading defaults the listener set to
`[defaultListener]` only when the `listen` key is present and its list is
empty; a non-empty list is kept as is, and an absent `listen` key is a
deserialization error (the field has no serde default), not a defaulted
success. -/
theorem listen_defaulting : ∀ raw : RawConfigFile, raw.rules ≠ [] →
    (raw.listen = some [] → loadListen raw = .ok [defaultListener])
    ∧ (∀ l, raw.listen = some l → l ≠ [] → loadListen raw = .ok l)
    ∧ (raw.listen = none → loadListen raw = .error .missingListenField) := by
  intro raw hrules
  have hr : raw.rules.isEmpty = false := by
    simpa [List.isEmpty_iff] using hrules
  refine ⟨?_, ?_, ?_⟩
  · intro hl
    simp [loadListen, deserializeConfigFile, hl, Except.bind, validateListen, hr]
  · intro l hl hne
    have hl2 : l.isEmpty = false := by simpa [List.isEmpty_iff] using hne
    simp [loadListen, deserializeConfigFile, hl, Except.bind, validateListen, hr, hl2]
  · intro hl
    simp [loadListen, deserializeConfigFile, hl, Except.bind]

/-- C9 counterexample: a document with rules but no `listen` key fails to
load (so loading does not succeed with the default listener, as the claim
states), while the present-but-empty list does default. -/
theorem listen_absent_errors_cex :
    loadListen { listen := none, rules := [RuleKind.fallback] }
        = .error .missingListenField
    ∧ (loadListen { listen := none, rules := [RuleKind.fallback] }).isOk = false
    ∧ loadListen { listen := some [], rules := [RuleKind.fallback] }
        = .ok [defaultListener] := ⟨rfl, rfl, rfl⟩

/-- C9 witness: the empty-list case defaults. -/
theorem listen_defaulting_witness :
    loadListen { listen := some [], rules := [RuleKind.filter] }
      = .ok [defaultListener] :=
  (listen_defaulting { listen := some [], rules := [RuleKind.filter] }
    (by decide)).1 rfl

/-- C10: a zero-byte read (client EOF) leaves the read-ahead loop's state
unchanged when every active parser still answers need-more — no parser is
removed — so with a non-empty active set the loop never exits on its own,
however many EOF reads occur; only the external deadline ends the
connection. -/
theorem eof_loop_never_terminates : ∀ (parsers : List ParserFn)
    (buf : List Nat) (active : List Nat),
    active ≠ [] →
    (∀ ix ∈ active, parserAt parsers ix buf = .needMore) →
    stillActive parsers active buf = active ∧
      ∀ n, runLoop parsers (List.replicate n []) buf active = none := by
  intro parsers buf active hne hnm
  refine ⟨stillActive_eq_self parsers active buf hnm, ?_⟩
  intro n
  induction n with
  | zero =>
    unfold runLoop
    simp [List.isEmpty_iff, hne]
  | succ n ih =>
    rw [List.replicate_succ]
    unfold runLoop
    simp only [List.isEmpty_iff, hne, if_neg, List.append_nil]
    rw [firstReady_eq_none parsers active buf hnm,
      stillActive_eq_self parsers active buf hnm]
    simpa [List.isEmpty_iff, hne] using ih

/-- C10 witness: the H1 parser on a request line with no Host header yet
still needs more, and three EOF reads leave the loop with no outcome. -/
theorem eof_loop_never_terminates_witness :
    parserAt [h1ParserFn] 0 (bytes "GET /\n") = .needMore
    ∧ runLoop [h1ParserFn] (List.replicate 3 []) (bytes "GET /\n") [0] = none :=
  ⟨by decide,
    (eof_loop_never_terminates [h1ParserFn] (bytes "GET /\n") [0]
      (by decide) (by decide)).2 3⟩
